import Mathlib

/- Shallow embedding of the hot-moment detection and media-capture pipeline:
   HotMomentService (src/src/hot-moment/hot-moment.module.ts, second service
   copy, lines 368-853) and the capture / live-ingestion part of
   TranscriptionService (src/src/transcription/transcription.module.ts).

   Modelling conventions:
   - External effects (OpenAI chat completions, shell command execution) are
     supplied by oracle records of pure functions; a call that the source
     JSON.parses defensively is modelled as an `Option` result where `none`
     is a response that fails to parse as the expected shape.
   - The per-thread `Record<string, ...>` objects of the service are
     association lists keyed by thread id; `undefined` lookups are `none`.
   - The Mongo collection behind `hotMomentModel` is a list of records, in
     insertion order, with `createdAt` timestamps assigned from a counter.
     `hotMoment.save()` runs Mongoose validation before inserting: the
     schema marks `thread_id`, `moment_title` and `content` as required,
     and the required validator on a String path fails on the empty string,
     so `save()` rejects without inserting whenever one of those three
     values is empty — in particular whenever `content.trim()` is empty.
     A rejected save throws out of the calling service method; the
     mutations made before the `await` stand, those after it are skipped.
   - Functions that can throw return `Except String` results; where the
     state reached at the throw point matters (`analyzeParagraph`), the
     result is paired with the service state reached in every case.
   - The large French prompt templates are not re-rendered as text; a pushed
     user message is represented by the data interpolated into the template
     (accumulated context and trimmed paragraph), which determines the
     rendered prompt uniquely.
   - `String.prototype.trim` is modelled over the ASCII whitespace actually
     occurring in the modelled texts (space, newline, tab, CR). -/

def isWsChar (c : Char) : Bool := c == ' ' || c == '\n' || c == '\t' || c == '\r'

/-- JavaScript `s.trim()`: drop leading and trailing whitespace. -/
def jsTrim (s : String) : String :=
  String.mk (((s.data.dropWhile isWsChar).reverse.dropWhile isWsChar).reverse)

/- Association-list operations modelling JS object index / assignment /
   `delete` on the service's `Record<string, T>` fields. -/

def getKey (m : List (String × α)) (k : String) : Option α :=
  match m with
  | [] => none
  | (k', v) :: t => if k' = k then some v else getKey t k

def delKey (m : List (String × α)) (k : String) : List (String × α) :=
  match m with
  | [] => []
  | (k', v) :: t => if k' = k then delKey t k else (k', v) :: delKey t k

def setKey (m : List (String × α)) (k : String) (v : α) : List (String × α) :=
  (k, v) :: delKey m k

/-- Result of `JSON.parse` on the Topic Classifier's reply, with the shape
    the service reads (`is_hot_moment`, `moment_title`, `continuation`). -/
structure ClassifierResult where
  is_hot_moment : Bool
  moment_title : Option String
  continuation : Bool
deriving DecidableEq

/-- The defensive default used on a JSON parse failure
    (hot-moment.module.ts line 505). -/
def defaultResult : ClassifierResult :=
  { is_hot_moment := false, moment_title := none, continuation := false }

/-- The social-posts bundle produced by `generateSocialPosts`. -/
structure Posts where
  twitter : Option (List String) := none
  instagram : Option String := none
  facebook : Option String := none
  masmedia : Option String := none
deriving DecidableEq

/-- A pending capture (type `Capture` of the service, lines 379-385). -/
structure Capture where
  offset : Nat
  screenshotPath : String
  gifPath : String
  screenshotUrl : String
  gifUrl : String
deriving DecidableEq

/-- A persisted hot moment (schemas/hot-moment.schema.ts), with the
    `createdAt` timestamp added by `{ timestamps: true }`. -/
structure StoredMoment where
  thread_id : String
  moment_title : String
  content : String
  posts : Posts
  captures : List Capture
  createdAt : Nat
deriving DecidableEq

/-- One entry of `threadsHistory[threadId]`.  A user entry carries the data
    interpolated into the prompt template (the trimmed accumulated context
    and the trimmed new paragraph); an assistant entry carries the
    JSON.stringify-ed decision. -/
inductive HistEntry
  | system
  | user (context paragraph : String)
  | assistant (result : ClassifierResult)
deriving DecidableEq

/-- The whole mutable state of `HotMomentService` plus the Mongo store. -/
structure ServiceState where
  threadsHistory : List (String × List HistEntry)
  lastMomentTitleByThread : List (String × Option String)
  hotMomentContentByThread : List (String × String)
  pendingCaptures : List (String × List Capture)
  store : List StoredMoment
  nextTime : Nat
deriving DecidableEq

/-- Oracles for the three OpenAI completions the service performs.
    `classify` returns the parsed JSON decision of the first completion, or
    `none` when the raw response does not parse; `checkContinuation` returns
    the raw text content of the continuity completion (`none` models a null
    `message.content`); `genPosts` returns the parsed social-posts JSON or
    `none` on a parse failure. -/
structure LLMOracle where
  classify : List HistEntry → Option ClassifierResult
  checkContinuation : String → String → Option String
  genPosts : String → String → Option Posts

/-- JS truthiness of the `string | null` titles the service stores:
    truthy iff a non-null, non-empty string. -/
def titleTruthy : Option String → Bool
  | none => false
  | some s => s != ""

/-- Flatten the doubly-optional lookup of a `string | null` record field:
    a missing key and a stored `null` are both falsy `none`. -/
def flat2 : Option (Option String) → Option String
  | none => none
  | some x => x

/-- `generateSocialPosts` (lines 595-677): one completion, JSON.parse with
    a catch returning `{}`. -/
def generateSocialPosts (o : LLMOracle) (title content : String) : Posts :=
  (o.genPosts title content).getD {}

/-- The error a rejected `hotMoment.save()` throws when a required String
    path of the schema (`thread_id`, `moment_title`, `content`) is empty. -/
def mongooseValidationError : String := "ValidationError"

/-- `saveHotMoment` (lines 679-718): builds the document with
    `content: content.trim()` and awaits `hotMoment.save()`.  Mongoose
    validates the required String paths of the schema first and rejects on
    an empty value, so the save throws (inserting nothing) when the thread
    id, the title or the trimmed content is empty; otherwise the document
    is inserted.  The SSE emission does not affect the modelled state. -/
def saveHotMoment (st : ServiceState) (threadId title content : String)
    (posts : Posts) (captures : List Capture) : Except String ServiceState :=
  if threadId != "" && title != "" && jsTrim content != "" then
    Except.ok
      { st with
        store := st.store ++
          [{ thread_id := threadId, moment_title := title, content := jsTrim content,
             posts := posts, captures := captures, createdAt := st.nextTime }],
        nextTime := st.nextTime + 1 }
  else
    Except.error mongooseValidationError

/-- `createThread` (lines 419-448): allocate a thread id from the clock and
    initialize the per-thread records. -/
def createThread (st : ServiceState) (now : Nat) : String × ServiceState :=
  let threadId := "thread_" ++ toString now
  (threadId,
    { st with
      threadsHistory := setKey st.threadsHistory threadId [HistEntry.system],
      lastMomentTitleByThread := setKey st.lastMomentTitleByThread threadId none,
      hotMomentContentByThread := setKey st.hotMomentContentByThread threadId "" })

/-- The continuity decision (lines 510-527): ask the oracle about the two
    titles, trim the reply, and compare it to the exact text `true`. -/
def sameTopicOf (o : LLMOracle) (titleA titleB : String) : Bool :=
  match o.checkContinuation titleA titleB with
  | some s => jsTrim s == "true"
  | none => false

/-- The accumulated-context string used in the prompt (line 455):
    `this.hotMomentContentByThread[threadId]?.trim() || ''`. -/
def contextOf (st : ServiceState) (threadId : String) : String :=
  jsTrim ((getKey st.hotMomentContentByThread threadId).getD "")

/-- The message list sent to the Topic Classifier: the thread history with
    the new user prompt pushed (lines 488-497). -/
def classifierInput (st : ServiceState) (threadId paragraph : String) : List HistEntry :=
  ((getKey st.threadsHistory threadId).getD []) ++
    [HistEntry.user (contextOf st threadId) (jsTrim paragraph)]

/-- Lines 508-562: when an active title and a proposed title are both
    truthy, run the continuity check; on `sameTopic` force a continuation
    keeping the active title, otherwise finalize the old moment (if it has
    accumulated text), reset the accumulated text and adopt the proposed
    title.  Otherwise record a newly started title when the paragraph is a
    hot moment, and clear the `continuation` flag.  A rejected save throws
    out of the whole step before the pending-capture delete and the
    resets (lines 550-555), leaving the state as it was. -/
def applyContinuity (o : LLMOracle) (st : ServiceState) (threadId : String)
    (result : ClassifierResult) : Except String ClassifierResult × ServiceState :=
  let lastTitle := flat2 (getKey st.lastMomentTitleByThread threadId)
  if titleTruthy lastTitle && titleTruthy result.moment_title then
    if sameTopicOf o (lastTitle.getD "") (result.moment_title.getD "") then
      (Except.ok { result with is_hot_moment := true, continuation := true, moment_title := lastTitle },
        st)
    else
      let contentOld := (getKey st.hotMomentContentByThread threadId).getD ""
      if titleTruthy lastTitle && contentOld != "" then
        let posts := generateSocialPosts o (lastTitle.getD "") contentOld
        let captures := (getKey st.pendingCaptures threadId).getD []
        match saveHotMoment st threadId (lastTitle.getD "") contentOld posts captures with
        | Except.error e => (Except.error e, st)
        | Except.ok stS =>
          let st1 := { stS with pendingCaptures := delKey stS.pendingCaptures threadId }
          (Except.ok { result with continuation := false },
            { st1 with
              hotMomentContentByThread := setKey st1.hotMomentContentByThread threadId "",
              lastMomentTitleByThread := setKey st1.lastMomentTitleByThread threadId result.moment_title })
      else
        (Except.ok { result with continuation := false },
          { st with
            hotMomentContentByThread := setKey st.hotMomentContentByThread threadId "",
            lastMomentTitleByThread := setKey st.lastMomentTitleByThread threadId result.moment_title })
  else
    (Except.ok { result with continuation := false },
      if result.is_hot_moment && titleTruthy result.moment_title then
        { st with lastMomentTitleByThread := setKey st.lastMomentTitleByThread threadId result.moment_title }
      else st)

/-- Lines 564-566: append the paragraph (plus newline) to the accumulated
    text when the (possibly overridden) decision is a titled hot moment. -/
def accumulateContent (st : ServiceState) (threadId paragraph : String)
    (result : ClassifierResult) : ServiceState :=
  if result.is_hot_moment && titleTruthy result.moment_title then
    let newContent := ((getKey st.hotMomentContentByThread threadId).getD "") ++ paragraph ++ "\n"
    { st with hotMomentContentByThread := setKey st.hotMomentContentByThread threadId newContent }
  else st

/-- Lines 568-571: push the JSON.stringify-ed decision as an assistant
    message. -/
def pushAssistant (st : ServiceState) (threadId : String)
    (result : ClassifierResult) : ServiceState :=
  let newHist := ((getKey st.threadsHistory threadId).getD []) ++ [HistEntry.assistant result]
  { st with threadsHistory := setKey st.threadsHistory threadId newHist }

/-- Lines 573-590: natural end-of-topic detection — a non-hot decision while
    a truthy title holds non-empty accumulated text finalizes the moment,
    deletes pending captures, empties the accumulated text and sets the
    stored title to the empty string.  A rejected save throws before the
    delete and the resets (lines 587-589), leaving the state as it was. -/
def endOfTopicCheck (o : LLMOracle) (st : ServiceState) (threadId : String)
    (result : ClassifierResult) : Except String Unit × ServiceState :=
  let lastTitle := flat2 (getKey st.lastMomentTitleByThread threadId)
  let content := (getKey st.hotMomentContentByThread threadId).getD ""
  if !result.is_hot_moment && titleTruthy lastTitle && content != "" then
    let posts := generateSocialPosts o (lastTitle.getD "") content
    let captures := (getKey st.pendingCaptures threadId).getD []
    match saveHotMoment st threadId (lastTitle.getD "") content posts captures with
    | Except.error e => (Except.error e, st)
    | Except.ok stS =>
      (Except.ok (),
        { stS with
          pendingCaptures := delKey stS.pendingCaptures threadId,
          hotMomentContentByThread := setKey stS.hotMomentContentByThread threadId "",
          lastMomentTitleByThread := setKey stS.lastMomentTitleByThread threadId (some "") })
  else (Except.ok (), st)

/-- `analyzeParagraph` (lines 450-593), the spec's `ingestParagraph`:
    unknown thread throws; otherwise push the user prompt, run the
    defensively-parsed classification, apply the continuity stage, the
    accumulation and the assistant push, and finally the end-of-topic
    check; return the decision.  A save rejection anywhere propagates out,
    paired with the state reached at the throw point. -/
def analyzeParagraph (o : LLMOracle) (st : ServiceState) (threadId paragraph : String) :
    Except String ClassifierResult × ServiceState :=
  if (getKey st.threadsHistory threadId).isNone then
    (Except.error ("Thread " ++ threadId ++ " inexistant"), st)
  else
    let hist1 := classifierInput st threadId paragraph
    let stA := { st with threadsHistory := setKey st.threadsHistory threadId hist1 }
    let result0 := (o.classify hist1).getD defaultResult
    match applyContinuity o stA threadId result0 with
    | (Except.error e, stB) => (Except.error e, stB)
    | (Except.ok result1, stB) =>
      let stC := accumulateContent stB threadId paragraph result1
      let stD := pushAssistant stC threadId result1
      match endOfTopicCheck o stD threadId result1 with
      | (Except.error e, stE) => (Except.error e, stE)
      | (Except.ok _, stE) => (Except.ok result1, stE)

/-- `finalizeThread` (lines 720-732), the spec's `finalizeSession`: if the
    stored title and content are both truthy, generate posts, persist, drop
    pending captures and empty the accumulated text; a rejected save throws
    before any of the mutations, so the state is unchanged on the error
    path.  The stored title is not cleared, the history is untouched, and
    an unknown thread id simply makes the guard false (successful no-op). -/
def finalizeThread (o : LLMOracle) (st : ServiceState) (threadId : String) :
    Except String ServiceState :=
  let lastTitle := flat2 (getKey st.lastMomentTitleByThread threadId)
  let content := (getKey st.hotMomentContentByThread threadId).getD ""
  if titleTruthy lastTitle && content != "" then
    let posts := generateSocialPosts o (lastTitle.getD "") content
    let captures := (getKey st.pendingCaptures threadId).getD []
    match saveHotMoment st threadId (lastTitle.getD "") content posts captures with
    | Except.error e => Except.error e
    | Except.ok stS =>
      Except.ok
        { stS with
          pendingCaptures := delKey stS.pendingCaptures threadId,
          hotMomentContentByThread := setKey stS.hotMomentContentByThread threadId "" }
  else Except.ok st

/-- The recency ordering used by `getRecentHotMoments`:
    `.sort(\x7b createdAt: -1 \x7d)`. -/
def recencyRel (a b : StoredMoment) : Prop := b.createdAt ≤ a.createdAt

instance : DecidableRel recencyRel := fun a b => Nat.decLe b.createdAt a.createdAt

instance : IsTotal StoredMoment recencyRel :=
  ⟨fun a b => Nat.le_total b.createdAt a.createdAt⟩

instance : IsTrans StoredMoment recencyRel :=
  ⟨fun _ _ _ h1 h2 => Nat.le_trans h2 h1⟩

/-- `getRecentHotMoments` (lines 792-799): sort by `createdAt` descending,
    keep `limit` documents, then reverse ("renvoyer dans l'ordre
    chronologique"). -/
def getRecentHotMoments (st : ServiceState) (limit : Nat) : List StoredMoment :=
  ((st.store.insertionSort recencyRel).take limit).reverse

/- Embedding of the capture side (transcription.module.ts). -/

/-- Outcome oracle for the shell pipelines run by
    `captureMediaForHotMoment`: whether the screenshot / gif command for a
    given offset exits successfully. -/
structure ExecOracle where
  screenshotOk : Nat → Bool
  gifOk : Nat → Bool

/-- Log events emitted while capturing (the per-offset start message and
    the error messages printed before rejecting). -/
inductive CaptureLog
  | captureStart (offset : Nat)
  | screenshotErr (offset : Nat)
  | gifErr (offset : Nat)
deriving DecidableEq

/-- The error a rejected capture promise propagates. -/
inductive CaptureErr
  | screenshot (offset : Nat)
  | gif (offset : Nat)
deriving DecidableEq

/-- `title.replace(/[^a-z0-9]/gi, '_').toLowerCase()` (line 87). -/
def safeTitleOf (t : String) : String :=
  String.mk (t.data.map (fun c => if c.isAlphanum then c.toLower else '_'))

/-- Base URL used by `toPublicUrl` (percent-encoding of the path segments
    is not re-modelled; the segments appear verbatim). -/
def PUBLIC_BASE_URL : String := "http://localhost:3001"

/-- The per-offset loop body of `captureMediaForHotMoment` (lines 94-127):
    build the two output paths, run the screenshot command then the gif
    command, awaiting each; an `exec` error is logged and rejects, which
    makes the whole function throw, abandoning the offsets not yet
    processed and the captures accumulated so far. -/
def captureLoop (eo : ExecOracle) (threadId safeTitle : String) (timestamp : Nat) :
    List Nat → List Capture → List CaptureLog →
    Except CaptureErr (List Capture) × List CaptureLog
  | [], caps, logs => (Except.ok caps, logs)
  | offset :: rest, caps, logs =>
    let file := toString timestamp ++ "_" ++ safeTitle ++ "_" ++ toString offset ++ "s"
    let screenshotPath := "captures/" ++ threadId ++ "/" ++ file ++ ".jpg"
    let gifPath := "captures/" ++ threadId ++ "/" ++ file ++ ".gif"
    let logs1 := logs ++ [CaptureLog.captureStart offset]
    if eo.screenshotOk offset then
      if eo.gifOk offset then
        let screenshotUrl := PUBLIC_BASE_URL ++ "/media/" ++ threadId ++ "/" ++ file ++ ".jpg"
        let gifUrl := PUBLIC_BASE_URL ++ "/media/" ++ threadId ++ "/" ++ file ++ ".gif"
        let cap : Capture :=
          { offset := offset, screenshotPath := screenshotPath, gifPath := gifPath,
            screenshotUrl := screenshotUrl, gifUrl := gifUrl }
        captureLoop eo threadId safeTitle timestamp rest (caps ++ [cap]) logs1
      else (Except.error (CaptureErr.gif offset), logs1 ++ [CaptureLog.gifErr offset])
    else (Except.error (CaptureErr.screenshot offset), logs1 ++ [CaptureLog.screenshotErr offset])

/-- `captureMediaForHotMoment` (lines 82-131): fixed offset list
    `[75, 60, 45]`, one timestamped jpg/gif pair per offset. -/
def captureMediaForHotMoment (eo : ExecOracle) (threadId title : String)
    (timestamp : Nat) : Except CaptureErr (List Capture) × List CaptureLog :=
  captureLoop eo threadId (safeTitleOf title) timestamp [75, 60, 45] [] []

/-- The body of the `fs.watch` callback of `transcribeFromLiveStream`
    (lines 160-191) for one transcribed segment text: skip blank text,
    analyze the paragraph, and when the decision is a non-continuation hot
    moment await the captures and store them in `pendingCaptures`.  The
    whole body sits in a `try` with an empty `catch`, so an analysis error
    or a capture rejection is swallowed and the state reached before the
    throw is kept. -/
def processSegment (lo : LLMOracle) (eo : ExecOracle) (st : ServiceState)
    (threadId text : String) (timestamp : Nat) : ServiceState :=
  if jsTrim text != "" then
    match analyzeParagraph lo st threadId text with
    | (Except.error _, st1) => st1
    | (Except.ok result, st1) =>
      if result.is_hot_moment && !result.continuation then
        match result.moment_title with
        | none => st1
        | some t =>
          match captureMediaForHotMoment eo threadId t timestamp with
          | (Except.ok caps, _) =>
            { st1 with pendingCaptures := setKey st1.pendingCaptures threadId caps }
          | (Except.error _, _) => st1
      else st1
  else st

/- Lemmas about the association-list operations and small helpers. -/

@[simp] theorem getKey_setKey_self (m : List (String × α)) (k : String) (v : α) :
    getKey (setKey m k v) k = some v := by
  simp [setKey, getKey]

theorem getKey_delKey_self (m : List (String × α)) (k : String) :
    getKey (delKey m k) k = none := by
  induction m with
  | nil => rfl
  | cons p t ih =>
    by_cases h : p.1 = k
    · simpa [delKey, h] using ih
    · simpa [delKey, h, getKey] using ih

theorem getKey_delKey_ne (m : List (String × α)) (k k' : String) (h : k' ≠ k) :
    getKey (delKey m k) k' = getKey m k' := by
  induction m with
  | nil => rfl
  | cons p t ih =>
    by_cases hp : p.1 = k
    · rw [show delKey (p :: t) k = delKey t k by simp [delKey, hp], ih]
      have hne : p.1 ≠ k' := by rw [hp]; exact fun hk => h hk.symm
      cases p with
      | mk a b => simp only [getKey]; rw [if_neg hne]
    · cases p with
      | mk a b =>
        rw [show delKey ((a, b) :: t) k = (a, b) :: delKey t k by simp [delKey, hp]]
        simp only [getKey, ih]

theorem getKey_setKey_ne (m : List (String × α)) (k k' : String) (v : α) (h : k' ≠ k) :
    getKey (setKey m k v) k' = getKey m k' := by
  rw [show setKey m k v = (k, v) :: delKey m k from rfl]
  simp only [getKey]
  rw [if_neg (fun hk => h hk.symm), getKey_delKey_ne m k k' h]

@[simp] theorem titleTruthy_none : titleTruthy none = false := rfl

theorem titleTruthy_some (s : String) : titleTruthy (some s) = (s != "") := rfl

@[simp] theorem empty_string_append (s : String) : "" ++ s = s := by
  cases s with
  | mk l => rfl

/-- A rejected save always throws the Mongoose validation error. -/
theorem saveHotMoment_error_eq (st : ServiceState) (threadId title content : String)
    (posts : Posts) (captures : List Capture) (e : String)
    (h : saveHotMoment st threadId title content posts captures = Except.error e) :
    e = mongooseValidationError := by
  rw [saveHotMoment] at h
  split at h
  · cases h
  · cases h
    rfl

/- Claim C1. -/

/-- C1: for every session with an active title `T`, when `ingestParagraph`
    receives a classifier result proposing a (truthy) title `T2` and the
    Continuity Resolver answers same-topic, the returned decision is a
    continuation hot moment titled `T`, and the session's active title after
    the call is still exactly `T` — the proposed `T2` is discarded.  No
    persistence is involved on this path. -/
theorem claim_C1_continuation_preserves_title
    (o : LLMOracle) (st : ServiceState) (threadId paragraph : String)
    (hist : List HistEntry) (T T2 : String) (r : ClassifierResult)
    (hh : getKey st.threadsHistory threadId = some hist)
    (hl : getKey st.lastMomentTitleByThread threadId = some (some T))
    (hT : T ≠ "")
    (hc : o.classify (classifierInput st threadId paragraph) = some r)
    (hr : r.moment_title = some T2)
    (hT2 : T2 ≠ "")
    (hs : sameTopicOf o T T2 = true) :
    (analyzeParagraph o st threadId paragraph).1 =
        Except.ok { is_hot_moment := true, moment_title := some T, continuation := true }
      ∧ getKey (analyzeParagraph o st threadId paragraph).2.lastMomentTitleByThread
          threadId = some (some T)
      ∧ (analyzeParagraph o st threadId paragraph).2.store = st.store := by
  refine ⟨?_, ?_, ?_⟩ <;>
    simp [analyzeParagraph, applyContinuity, accumulateContent, pushAssistant, endOfTopicCheck,
      hh, hc, hl, hr, hs, hT, hT2, titleTruthy_some, flat2]

def exStC1 : ServiceState :=
  { threadsHistory := [("t", [HistEntry.system])],
    lastMomentTitleByThread := [("t", some "Product X Launch")],
    hotMomentContentByThread := [("t", "p2\n")],
    pendingCaptures := [],
    store := [],
    nextTime := 0 }

def exOrC1 : LLMOracle :=
  { classify := fun _ =>
      some { is_hot_moment := true, moment_title := some "Product X Shipping", continuation := false },
    checkContinuation := fun _ _ => some "true",
    genPosts := fun _ _ => none }

/-- C1 witness: the theorem applied to a concrete session continuing the
    moment `Product X Launch`. -/
theorem claim_C1_witness :
    (analyzeParagraph exOrC1 exStC1 "t" "p3").1 =
        Except.ok
          { is_hot_moment := true, moment_title := some "Product X Launch",
            continuation := true }
      ∧ getKey (analyzeParagraph exOrC1 exStC1 "t" "p3").2.lastMomentTitleByThread
          "t" = some (some "Product X Launch")
      ∧ (analyzeParagraph exOrC1 exStC1 "t" "p3").2.store = exStC1.store :=
  claim_C1_continuation_preserves_title exOrC1 exStC1 "t" "p3" [HistEntry.system]
    "Product X Launch" "Product X Shipping"
    { is_hot_moment := true, moment_title := some "Product X Shipping", continuation := false }
    rfl rfl (by decide) rfl rfl (by decide) (by decide)

/- Claim C7. -/

def exStC7 : ServiceState :=
  { threadsHistory := [], lastMomentTitleByThread := [], hotMomentContentByThread := [],
    pendingCaptures := [], store := [], nextTime := 0 }

def exOrC7 : LLMOracle :=
  { classify := fun _ => none,
    checkContinuation := fun _ _ => none,
    genPosts := fun _ _ => none }

/-- C7 counterexample: on a session id that was never created,
    `ingestParagraph` does throw, but `finalizeSession` silently succeeds
    as a no-op — it returns success with the state unchanged and persists
    nothing, so the unknown-session condition is *not* surfaced to the
    caller (`finalizeThread`, lines 720-732, has no existence check and its
    falsy guard simply skips the body). -/
theorem claim_C7_counterexample :
    analyzeParagraph exOrC7 exStC7 "ghost" "p" =
        (Except.error "Thread ghost inexistant", exStC7)
      ∧ finalizeThread exOrC7 exStC7 "ghost" = Except.ok exStC7 :=
  ⟨rfl, rfl⟩

/-- C7 amended: for a session id that was never created (no history entry,
    no stored title), `ingestParagraph` raises the caller error
    `Thread <id> inexistant` leaving the state unchanged, while
    `finalizeSession` silently succeeds as a no-op without writing
    anything. -/
theorem claim_C7_unknown_session
    (o : LLMOracle) (st : ServiceState) (threadId paragraph : String)
    (hh : getKey st.threadsHistory threadId = none)
    (hl : getKey st.lastMomentTitleByThread threadId = none) :
    analyzeParagraph o st threadId paragraph =
        (Except.error ("Thread " ++ threadId ++ " inexistant"), st)
      ∧ finalizeThread o st threadId = Except.ok st := by
  constructor
  · simp [analyzeParagraph, hh]
  · simp [finalizeThread, hl, flat2]

/-- C7 witness: the amended theorem at the empty service state. -/
theorem claim_C7_witness :
    analyzeParagraph exOrC7 exStC7 "ghost" "p" =
        (Except.error ("Thread " ++ "ghost" ++ " inexistant"), exStC7)
      ∧ finalizeThread exOrC7 exStC7 "ghost" = Except.ok exStC7 :=
  claim_C7_unknown_session exOrC7 exStC7 "ghost" "p" rfl rfl

/- Claim C2. -/

def exStC2 : ServiceState :=
  { threadsHistory := [("t", [HistEntry.system])],
    lastMomentTitleByThread := [("t", some "T")],
    hotMomentContentByThread := [("t", "x\n")],
    pendingCaptures := [],
    store := [],
    nextTime := 0 }

def exOrC2 : LLMOracle :=
  { classify := fun _ =>
      some { is_hot_moment := true, moment_title := some "U", continuation := false },
    checkContinuation := fun _ _ => some "false",
    genPosts := fun _ _ => none }

/-- C2 counterexample: a topic switch (active title `T`, accumulated text
    `x\n`, proposed title `U`, continuity resolver answering `false`) on a
    paragraph the classifier flags as hot.  One moment is persisted with
    title `T` — with the *trimmed* text `x`, not the accumulated `x\n` —
    and after the call the accumulated text is `p\n` (the new paragraph),
    not empty as the claim states. -/
theorem claim_C2_counterexample :
    (analyzeParagraph exOrC2 exStC2 "t" "p").2.store.map
        (fun m => (m.moment_title, m.content)) = [("T", "x")]
      ∧ getKey (analyzeParagraph exOrC2 exStC2 "t" "p").2.hotMomentContentByThread
          "t" = some "p\n"
      ∧ ¬ getKey (analyzeParagraph exOrC2 exStC2 "t" "p").2.hotMomentContentByThread
          "t" = some "" := by
  refine ⟨rfl, rfl, ?_⟩
  decide

/-- C2 amended: on a topic switch (active title `T`, non-empty accumulated
    text `C`, truthy proposed title `T2`, continuity resolver answering
    false), when the trimmed accumulated text is non-empty exactly one
    Moment is persisted with title `T` and the trimmed text `jsTrim C`, the
    pending-capture set is cleared, the decision keeps the classifier's hot
    flag with `continuation = false` and the proposed title `T2`, the
    active title becomes `T2`, and the accumulated text afterwards is the
    new paragraph plus separator when the classifier flagged the paragraph
    hot, or empty otherwise.  When the trimmed accumulated text is empty,
    the save's Mongoose validation rejects: the call throws, nothing is
    persisted, and the active title and accumulated text are left as they
    were (the switch never happens). -/
theorem claim_C2_topic_switch_finalizes
    (o : LLMOracle) (st : ServiceState) (threadId paragraph : String)
    (hist : List HistEntry) (T T2 C : String) (r : ClassifierResult)
    (hh : getKey st.threadsHistory threadId = some hist)
    (hl : getKey st.lastMomentTitleByThread threadId = some (some T))
    (hT : T ≠ "")
    (hcon : getKey st.hotMomentContentByThread threadId = some C)
    (hC : C ≠ "")
    (hc : o.classify (classifierInput st threadId paragraph) = some r)
    (hr : r.moment_title = some T2)
    (hT2 : T2 ≠ "")
    (hs : sameTopicOf o T T2 = false)
    (htid : threadId ≠ "") :
    (jsTrim C ≠ "" →
      (analyzeParagraph o st threadId paragraph).1 =
          Except.ok
            { is_hot_moment := r.is_hot_moment, moment_title := some T2,
              continuation := false }
        ∧ (analyzeParagraph o st threadId paragraph).2.store = st.store ++
            [{ thread_id := threadId, moment_title := T, content := jsTrim C,
               posts := generateSocialPosts o T C,
               captures := (getKey st.pendingCaptures threadId).getD [],
               createdAt := st.nextTime }]
        ∧ getKey (analyzeParagraph o st threadId paragraph).2.pendingCaptures threadId = none
        ∧ getKey (analyzeParagraph o st threadId paragraph).2.lastMomentTitleByThread
            threadId = some (some T2)
        ∧ getKey (analyzeParagraph o st threadId paragraph).2.hotMomentContentByThread
            threadId = some (if r.is_hot_moment then paragraph ++ "\n" else ""))
      ∧ (jsTrim C = "" →
        (analyzeParagraph o st threadId paragraph).1 = Except.error mongooseValidationError
          ∧ (analyzeParagraph o st threadId paragraph).2.store = st.store
          ∧ getKey (analyzeParagraph o st threadId paragraph).2.lastMomentTitleByThread
              threadId = some (some T)
          ∧ getKey (analyzeParagraph o st threadId paragraph).2.hotMomentContentByThread
              threadId = some C) := by
  constructor
  · intro htrim
    cases hih : r.is_hot_moment with
    | true =>
      refine ⟨?_, ?_, ?_, ?_, ?_⟩ <;>
        simp [analyzeParagraph, applyContinuity, accumulateContent, pushAssistant,
          endOfTopicCheck, saveHotMoment, hh, hc, hl, hcon, hr, hs, hT, hT2, hC, hih, htid,
          htrim, titleTruthy_some, flat2, getKey_delKey_self]
    | false =>
      refine ⟨?_, ?_, ?_, ?_, ?_⟩ <;>
        simp [analyzeParagraph, applyContinuity, accumulateContent, pushAssistant,
          endOfTopicCheck, saveHotMoment, hh, hc, hl, hcon, hr, hs, hT, hT2, hC, hih, htid,
          htrim, titleTruthy_some, flat2, getKey_delKey_self]
  · intro htrim
    refine ⟨?_, ?_, ?_, ?_⟩ <;>
      simp [analyzeParagraph, applyContinuity, accumulateContent, pushAssistant,
        endOfTopicCheck, saveHotMoment, mongooseValidationError, hh, hc, hl, hcon, hr, hs,
        hT, hT2, hC, htid, htrim, titleTruthy_some, flat2]

/-- C2 witness: the amended theorem applied to the concrete topic switch of
    the counterexample state (non-whitespace accumulated text `x\n`). -/
theorem claim_C2_witness :
    (jsTrim "x\n" ≠ "" →
      (analyzeParagraph exOrC2 exStC2 "t" "p").1 =
          Except.ok { is_hot_moment := true, moment_title := some "U", continuation := false }
        ∧ (analyzeParagraph exOrC2 exStC2 "t" "p").2.store = exStC2.store ++
            [{ thread_id := "t", moment_title := "T", content := jsTrim "x\n",
               posts := generateSocialPosts exOrC2 "T" "x\n",
               captures := (getKey exStC2.pendingCaptures "t").getD [],
               createdAt := exStC2.nextTime }]
        ∧ getKey (analyzeParagraph exOrC2 exStC2 "t" "p").2.pendingCaptures "t" = none
        ∧ getKey (analyzeParagraph exOrC2 exStC2 "t" "p").2.lastMomentTitleByThread
            "t" = some (some "U")
        ∧ getKey (analyzeParagraph exOrC2 exStC2 "t" "p").2.hotMomentContentByThread
            "t" = some (if (true : Bool) then "p" ++ "\n" else ""))
      ∧ (jsTrim "x\n" = "" →
        (analyzeParagraph exOrC2 exStC2 "t" "p").1 = Except.error mongooseValidationError
          ∧ (analyzeParagraph exOrC2 exStC2 "t" "p").2.store = exStC2.store
          ∧ getKey (analyzeParagraph exOrC2 exStC2 "t" "p").2.lastMomentTitleByThread
              "t" = some (some "T")
          ∧ getKey (analyzeParagraph exOrC2 exStC2 "t" "p").2.hotMomentContentByThread
              "t" = some "x\n") :=
  claim_C2_topic_switch_finalizes exOrC2 exStC2 "t" "p" [HistEntry.system] "T" "U" "x\n"
    { is_hot_moment := true, moment_title := some "U", continuation := false }
    rfl rfl (by decide) rfl (by decide) rfl rfl (by decide) (by decide) (by decide)

/- Claim C3. -/

def exStC3 : ServiceState :=
  { threadsHistory := [("t", [HistEntry.system])],
    lastMomentTitleByThread := [("t", some "T")],
    hotMomentContentByThread := [("t", "x\n")],
    pendingCaptures := [],
    store := [],
    nextTime := 0 }

def exOrC3 : LLMOracle :=
  { classify := fun _ =>
      some { is_hot_moment := false, moment_title := none, continuation := false },
    checkContinuation := fun _ _ => some "false",
    genPosts := fun _ _ => none }

/-- C3 counterexample: end-of-topic detection (active title `T`, accumulated
    text `x\n`, classifier says not hot with no proposed title) persists one
    Moment, but afterwards the session's active title is the *empty string*
    `some ""`, not `null` (`none`) as the claim states (hot-moment.module.ts
    line 589 assigns `''`). -/
theorem claim_C3_counterexample :
    (analyzeParagraph exOrC3 exStC3 "t" "p").2.store.map
        (fun m => (m.moment_title, m.content)) = [("T", "x")]
      ∧ getKey (analyzeParagraph exOrC3 exStC3 "t" "p").2.lastMomentTitleByThread
          "t" = some (some "")
      ∧ ¬ getKey (analyzeParagraph exOrC3 exStC3 "t" "p").2.lastMomentTitleByThread
          "t" = some none := by
  refine ⟨rfl, rfl, ?_⟩
  decide

/-- C3 amended: with an active title `T`, non-empty accumulated text `C`,
    and a classifier decision that is not a hot moment and proposes no
    (truthy) title: when the trimmed text is non-empty, `ingestParagraph`
    persists exactly one Moment with title `T` and the trimmed text
    `jsTrim C`, clears pending captures as well as the accumulated text,
    and sets the active title to the falsy empty string (treated as
    no-active-moment by every later call, but not `null`).  When the
    trimmed text is empty, the save's Mongoose validation rejects: the call
    throws, nothing is persisted, and the end-of-topic resets are skipped
    (the active title and accumulated text stay as they were). -/
theorem claim_C3_non_hot_ends_moment
    (o : LLMOracle) (st : ServiceState) (threadId paragraph : String)
    (hist : List HistEntry) (T C : String) (r : ClassifierResult)
    (hh : getKey st.threadsHistory threadId = some hist)
    (hl : getKey st.lastMomentTitleByThread threadId = some (some T))
    (hT : T ≠ "")
    (hcon : getKey st.hotMomentContentByThread threadId = some C)
    (hC : C ≠ "")
    (hc : o.classify (classifierInput st threadId paragraph) = some r)
    (hih : r.is_hot_moment = false)
    (hnt : titleTruthy r.moment_title = false)
    (htid : threadId ≠ "") :
    (jsTrim C ≠ "" →
      (analyzeParagraph o st threadId paragraph).1 =
          Except.ok
            { is_hot_moment := false, moment_title := r.moment_title, continuation := false }
        ∧ (analyzeParagraph o st threadId paragraph).2.store = st.store ++
            [{ thread_id := threadId, moment_title := T, content := jsTrim C,
               posts := generateSocialPosts o T C,
               captures := (getKey st.pendingCaptures threadId).getD [],
               createdAt := st.nextTime }]
        ∧ getKey (analyzeParagraph o st threadId paragraph).2.lastMomentTitleByThread
            threadId = some (some "")
        ∧ getKey (analyzeParagraph o st threadId paragraph).2.hotMomentContentByThread
            threadId = some ""
        ∧ getKey (analyzeParagraph o st threadId paragraph).2.pendingCaptures threadId = none)
      ∧ (jsTrim C = "" →
        (analyzeParagraph o st threadId paragraph).1 = Except.error mongooseValidationError
          ∧ (analyzeParagraph o st threadId paragraph).2.store = st.store
          ∧ getKey (analyzeParagraph o st threadId paragraph).2.lastMomentTitleByThread
              threadId = some (some T)
          ∧ getKey (analyzeParagraph o st threadId paragraph).2.hotMomentContentByThread
              threadId = some C) := by
  constructor
  · intro htrim
    refine ⟨?_, ?_, ?_, ?_, ?_⟩ <;>
      simp [analyzeParagraph, applyContinuity, accumulateContent, pushAssistant,
        endOfTopicCheck, saveHotMoment, hh, hc, hl, hcon, hih, hnt, hT, hC, htid, htrim,
        titleTruthy_some, flat2, getKey_delKey_self]
  · intro htrim
    refine ⟨?_, ?_, ?_, ?_⟩ <;>
      simp [analyzeParagraph, applyContinuity, accumulateContent, pushAssistant,
        endOfTopicCheck, saveHotMoment, mongooseValidationError, hh, hc, hl, hcon, hih, hnt,
        hT, hC, htid, htrim, titleTruthy_some, flat2]

/-- C3 witness: the amended theorem applied to the concrete end-of-topic
    state of the counterexample (non-whitespace accumulated text `x\n`). -/
theorem claim_C3_witness :
    (jsTrim "x\n" ≠ "" →
      (analyzeParagraph exOrC3 exStC3 "t" "p").1 =
          Except.ok
            { is_hot_moment := false, moment_title := none, continuation := false }
        ∧ (analyzeParagraph exOrC3 exStC3 "t" "p").2.store = exStC3.store ++
            [{ thread_id := "t", moment_title := "T", content := jsTrim "x\n",
               posts := generateSocialPosts exOrC3 "T" "x\n",
               captures := (getKey exStC3.pendingCaptures "t").getD [],
               createdAt := exStC3.nextTime }]
        ∧ getKey (analyzeParagraph exOrC3 exStC3 "t" "p").2.lastMomentTitleByThread
            "t" = some (some "")
        ∧ getKey (analyzeParagraph exOrC3 exStC3 "t" "p").2.hotMomentContentByThread
            "t" = some ""
        ∧ getKey (analyzeParagraph exOrC3 exStC3 "t" "p").2.pendingCaptures "t" = none)
      ∧ (jsTrim "x\n" = "" →
        (analyzeParagraph exOrC3 exStC3 "t" "p").1 = Except.error mongooseValidationError
          ∧ (analyzeParagraph exOrC3 exStC3 "t" "p").2.store = exStC3.store
          ∧ getKey (analyzeParagraph exOrC3 exStC3 "t" "p").2.lastMomentTitleByThread
              "t" = some (some "T")
          ∧ getKey (analyzeParagraph exOrC3 exStC3 "t" "p").2.hotMomentContentByThread
              "t" = some "x\n") :=
  claim_C3_non_hot_ends_moment exOrC3 exStC3 "t" "p" [HistEntry.system] "T" "x\n"
    { is_hot_moment := false, moment_title := none, continuation := false }
    rfl rfl (by decide) rfl (by decide) rfl rfl rfl (by decide)

/- Claim C4. -/

/-- The service state after a `finalizeThread` call: the result state on
    success, the unchanged input state when the save threw (the source
    mutates nothing before the `await saveHotMoment`). -/
def finalizeState (st : ServiceState) (e : Except String ServiceState) : ServiceState :=
  match e with
  | Except.ok st1 => st1
  | Except.error _ => st

/-- An inactive session (falsy stored title or empty accumulated text)
    makes `finalizeThread` a successful no-op. -/
theorem finalizeThread_skip (o : LLMOracle) (st : ServiceState) (threadId : String)
    (h : (titleTruthy (flat2 (getKey st.lastMomentTitleByThread threadId))
        && ((getKey st.hotMomentContentByThread threadId).getD "" != "")) = false) :
    finalizeThread o st threadId = Except.ok st := by
  have h' : ¬ ((titleTruthy (flat2 (getKey st.lastMomentTitleByThread threadId))
      && ((getKey st.hotMomentContentByThread threadId).getD "" != "")) = true) := by
    simp [h]
  simp only [finalizeThread]
  rw [if_neg h']

/-- An active session whose save passes validation makes `finalizeThread`
    persist exactly one Moment, empty the accumulated text, drop pending
    captures and keep the stored titles and the history. -/
theorem finalizeThread_run (o : LLMOracle) (st : ServiceState) (threadId : String)
    (hg : (titleTruthy (flat2 (getKey st.lastMomentTitleByThread threadId))
        && ((getKey st.hotMomentContentByThread threadId).getD "" != "")) = true)
    (hcond : (threadId != ""
        && ((flat2 (getKey st.lastMomentTitleByThread threadId)).getD "" != "")
        && (jsTrim ((getKey st.hotMomentContentByThread threadId).getD "") != "")) = true) :
    ∃ stF, finalizeThread o st threadId = Except.ok stF
      ∧ getKey stF.hotMomentContentByThread threadId = some ""
      ∧ getKey stF.pendingCaptures threadId = none
      ∧ stF.store.length = st.store.length + 1
      ∧ stF.lastMomentTitleByThread = st.lastMomentTitleByThread
      ∧ stF.threadsHistory = st.threadsHistory := by
  cases hF : finalizeThread o st threadId with
  | error e =>
    exfalso
    simp [finalizeThread, saveHotMoment, hg, hcond] at hF
  | ok stF =>
    simp only [finalizeThread, saveHotMoment, hg, hcond, if_true, if_pos] at hF
    injection hF with hF
    refine ⟨stF, rfl, ?_, ?_, ?_, ?_, ?_⟩ <;>
    · subst hF
      simp [getKey_setKey_self, getKey_delKey_self]

/-- An active session whose trimmed accumulated text is empty makes
    `finalizeThread` throw the validation error without mutating anything. -/
theorem finalizeThread_throw (o : LLMOracle) (st : ServiceState) (threadId : String)
    (hg : (titleTruthy (flat2 (getKey st.lastMomentTitleByThread threadId))
        && ((getKey st.hotMomentContentByThread threadId).getD "" != "")) = true)
    (htrim : jsTrim ((getKey st.hotMomentContentByThread threadId).getD "") = "") :
    finalizeThread o st threadId = Except.error mongooseValidationError := by
  simp [finalizeThread, saveHotMoment, hg, htrim]

/-- C4 amended: `finalizeSession` run twice in a row performs at most one
    persistence write and the second call adds nothing: running it again on
    the state the first call left behind (its result, or the unchanged
    state when it threw) gives the same outcome as the first call.  A call
    with no truthy active title or no accumulated text is a successful
    no-op; a call with an active moment whose trimmed text is non-empty
    (and a non-empty session id) persists exactly one Moment; a call with
    an active moment whose trimmed text is EMPTY throws the Mongoose
    validation error without persisting or clearing anything — it is not
    the successful no-op the original claim describes, and the second call
    throws identically. -/
theorem claim_C4_finalize_idempotent (o : LLMOracle) (st : ServiceState) (threadId : String) :
    finalizeThread o (finalizeState st (finalizeThread o st threadId)) threadId =
        finalizeThread o st threadId
      ∧ (finalizeState st (finalizeThread o st threadId)).store.length ≤ st.store.length + 1
      ∧ ((titleTruthy (flat2 (getKey st.lastMomentTitleByThread threadId)) = false
            ∨ (getKey st.hotMomentContentByThread threadId).getD "" = "")
          → finalizeThread o st threadId = Except.ok st)
      ∧ ((titleTruthy (flat2 (getKey st.lastMomentTitleByThread threadId)) = true
            ∧ (getKey st.hotMomentContentByThread threadId).getD "" ≠ ""
            ∧ jsTrim ((getKey st.hotMomentContentByThread threadId).getD "") ≠ ""
            ∧ threadId ≠ "")
          → ∃ stF, finalizeThread o st threadId = Except.ok stF
              ∧ stF.store.length = st.store.length + 1)
      ∧ ((titleTruthy (flat2 (getKey st.lastMomentTitleByThread threadId)) = true
            ∧ (getKey st.hotMomentContentByThread threadId).getD "" ≠ ""
            ∧ jsTrim ((getKey st.hotMomentContentByThread threadId).getD "") = "")
          → finalizeThread o st threadId = Except.error mongooseValidationError) := by
  by_cases hg : (titleTruthy (flat2 (getKey st.lastMomentTitleByThread threadId))
      && ((getKey st.hotMomentContentByThread threadId).getD "" != "")) = true
  · have ht := (Bool.and_eq_true _ _).mp hg
    by_cases hcond : (threadId != ""
        && ((flat2 (getKey st.lastMomentTitleByThread threadId)).getD "" != "")
        && (jsTrim ((getKey st.hotMomentContentByThread threadId).getD "") != "")) = true
    · obtain ⟨stF, hF, hFc, _, hFlen, hFlast, _⟩ := finalizeThread_run o st threadId hg hcond
      refine ⟨?_, ?_, ?_, ?_, ?_⟩
      · rw [hF]
        show finalizeThread o stF threadId = _
        rw [finalizeThread_skip o stF threadId (by rw [hFc, hFlast]; simp)]
      · rw [hF]
        show stF.store.length ≤ _
        exact hFlen.le
      · intro hcase
        rcases hcase with hcase | hcase
        · rw [ht.1] at hcase; exact absurd hcase (by decide)
        · rw [hcase] at ht; exact absurd ht.2 (by decide)
      · intro _
        exact ⟨stF, hF, hFlen⟩
      · intro hcase
        have := (Bool.and_eq_true _ _).mp hcond
        rw [hcase.2.2] at this
        exact absurd this.2 (by decide)
    · have htrim : jsTrim ((getKey st.hotMomentContentByThread threadId).getD "") = ""
          ∨ threadId = "" := by
        rcases Bool.and_eq_false_iff.mp (Bool.not_eq_true _ |>.mp hcond) with h | h
        · rcases Bool.and_eq_false_iff.mp h with h' | h'
          · right; simpa using h'
          · exfalso
            have : (flat2 (getKey st.lastMomentTitleByThread threadId)).getD "" ≠ "" := by
              rcases hx : flat2 (getKey st.lastMomentTitleByThread threadId) with _ | s
              · rw [hx] at ht; exact absurd ht.1 (by decide)
              · have := ht.1
                rw [hx, titleTruthy_some] at this
                simpa using this
            rw [show ((flat2 (getKey st.lastMomentTitleByThread threadId)).getD "" != "")
                = true by simpa using this] at h'
            cases h'
        · left; simpa using h
      have hthrow : finalizeThread o st threadId = Except.error mongooseValidationError := by
        have hcond' : ¬ ((threadId != ""
            && ((flat2 (getKey st.lastMomentTitleByThread threadId)).getD "" != "")
            && (jsTrim ((getKey st.hotMomentContentByThread threadId).getD "") != ""))
              = true) := hcond
        simp only [finalizeThread, saveHotMoment]
        rw [if_pos hg, if_neg hcond']
      refine ⟨?_, ?_, ?_, ?_, ?_⟩
      · rw [hthrow]
        show finalizeThread o st threadId = _
        rw [hthrow]
      · rw [hthrow]
        show st.store.length ≤ _
        exact Nat.le_succ _
      · intro hcase
        rcases hcase with hcase | hcase
        · rw [ht.1] at hcase; exact absurd hcase (by decide)
        · rw [hcase] at ht; exact absurd ht.2 (by decide)
      · intro hcase
        exfalso
        rcases htrim with htrim | htrim
        · exact hcase.2.2.1 htrim
        · exact hcase.2.2.2 htrim
      · intro _
        exact hthrow
  · have hng : (titleTruthy (flat2 (getKey st.lastMomentTitleByThread threadId))
        && ((getKey st.hotMomentContentByThread threadId).getD "" != "")) = false := by
      revert hg
      cases titleTruthy (flat2 (getKey st.lastMomentTitleByThread threadId))
          && ((getKey st.hotMomentContentByThread threadId).getD "" != "") <;> simp
    have hskip := finalizeThread_skip o st threadId hng
    refine ⟨?_, ?_, ?_, ?_, ?_⟩
    · rw [hskip]
      show finalizeThread o st threadId = _
      rw [hskip]
    · rw [hskip]
      show st.store.length ≤ _
      exact Nat.le_succ _
    · intro _
      exact hskip
    · intro hcase
      exfalso
      rcases Bool.and_eq_false_iff.mp hng with h | h
      · rw [hcase.1] at h; cases h
      · have : (getKey st.hotMomentContentByThread threadId).getD "" = "" := by simpa using h
        exact hcase.2.1 this
    · intro hcase
      exfalso
      rcases Bool.and_eq_false_iff.mp hng with h | h
      · rw [hcase.1] at h; cases h
      · have : (getKey st.hotMomentContentByThread threadId).getD "" = "" := by simpa using h
        exact hcase.2.1 this

def exStC4 : ServiceState :=
  { threadsHistory := [("t", [HistEntry.system])],
    lastMomentTitleByThread := [("t", some "T")],
    hotMomentContentByThread := [("t", " \n")],
    pendingCaptures := [],
    store := [],
    nextTime := 0 }

def exOrC4 : LLMOracle :=
  { classify := fun _ => none,
    checkContinuation := fun _ _ => none,
    genPosts := fun _ _ => none }

/-- C4 counterexample: with an active title `T` and the truthy but
    whitespace-only accumulated text `" \n"`, the first `finalizeSession`
    does NOT persist a Moment — the save of the trimmed empty content
    fails Mongoose validation and the call throws, clearing nothing — and
    the second call is not a successful no-op: it throws identically.  The
    claim's ``first call persists one Moment'' and ``second call succeeds''
    both fail at this state. -/
theorem claim_C4_counterexample :
    finalizeThread exOrC4 exStC4 "t" = Except.error mongooseValidationError
      ∧ getKey exStC4.hotMomentContentByThread "t" = some " \n"
      ∧ titleTruthy (flat2 (getKey exStC4.lastMomentTitleByThread "t")) = true
      ∧ finalizeThread exOrC4 (finalizeState exStC4 (finalizeThread exOrC4 exStC4 "t")) "t" =
          Except.error mongooseValidationError :=
  ⟨rfl, rfl, rfl, rfl⟩

def exStC4ok : ServiceState :=
  { threadsHistory := [("t", [HistEntry.system])],
    lastMomentTitleByThread := [("t", some "T")],
    hotMomentContentByThread := [("t", "x\n")],
    pendingCaptures := [],
    store := [],
    nextTime := 0 }

/-- C4 witness: the amended theorem applied to a session with an active
    moment whose trimmed text is non-empty. -/
theorem claim_C4_witness :
    finalizeThread exOrC4 (finalizeState exStC4ok (finalizeThread exOrC4 exStC4ok "t")) "t" =
        finalizeThread exOrC4 exStC4ok "t"
      ∧ (finalizeState exStC4ok (finalizeThread exOrC4 exStC4ok "t")).store.length ≤
          exStC4ok.store.length + 1
      ∧ ((titleTruthy (flat2 (getKey exStC4ok.lastMomentTitleByThread "t")) = false
            ∨ (getKey exStC4ok.hotMomentContentByThread "t").getD "" = "")
          → finalizeThread exOrC4 exStC4ok "t" = Except.ok exStC4ok)
      ∧ ((titleTruthy (flat2 (getKey exStC4ok.lastMomentTitleByThread "t")) = true
            ∧ (getKey exStC4ok.hotMomentContentByThread "t").getD "" ≠ ""
            ∧ jsTrim ((getKey exStC4ok.hotMomentContentByThread "t").getD "") ≠ ""
            ∧ "t" ≠ "")
          → ∃ stF, finalizeThread exOrC4 exStC4ok "t" = Except.ok stF
              ∧ stF.store.length = exStC4ok.store.length + 1)
      ∧ ((titleTruthy (flat2 (getKey exStC4ok.lastMomentTitleByThread "t")) = true
            ∧ (getKey exStC4ok.hotMomentContentByThread "t").getD "" ≠ ""
            ∧ jsTrim ((getKey exStC4ok.hotMomentContentByThread "t").getD "") = "")
          → finalizeThread exOrC4 exStC4ok "t" = Except.error mongooseValidationError) :=
  claim_C4_finalize_idempotent exOrC4 exStC4ok "t"

/- Claim C5. -/

theorem titleTruthy_getD (x : Option String) (h : titleTruthy x = true) : x.getD "" ≠ "" := by
  cases x with
  | none => simp [titleTruthy] at h
  | some s => simpa [titleTruthy] using h

/-- The only error `endOfTopicCheck` can surface is the save's Mongoose
    validation error. -/
theorem endOfTopicCheck_error_eq (o : LLMOracle) (st : ServiceState) (threadId : String)
    (r : ClassifierResult) (e : String)
    (h : (endOfTopicCheck o st threadId r).1 = Except.error e) :
    e = mongooseValidationError := by
  simp only [endOfTopicCheck] at h
  split at h
  · split at h
    next e' hsv =>
      simp at h
      subst h
      exact saveHotMoment_error_eq _ _ _ _ _ _ _ hsv
    next stS hsv =>
      simp at h
  · simp at h

/-- `endOfTopicCheck` succeeds when its guard is false or its save passes
    validation. -/
theorem endOfTopicCheck_ok_first (o : LLMOracle) (st : ServiceState) (threadId : String)
    (r : ClassifierResult)
    (hok : (!r.is_hot_moment && titleTruthy (flat2 (getKey st.lastMomentTitleByThread threadId))
        && ((getKey st.hotMomentContentByThread threadId).getD "" != "")) = false
      ∨ (threadId != "" && ((flat2 (getKey st.lastMomentTitleByThread threadId)).getD "" != "")
        && (jsTrim ((getKey st.hotMomentContentByThread threadId).getD "") != "")) = true) :
    (endOfTopicCheck o st threadId r).1 = Except.ok () := by
  rcases hok with hg | hcond
  · have hg' : ¬ ((!r.is_hot_moment
        && titleTruthy (flat2 (getKey st.lastMomentTitleByThread threadId))
        && ((getKey st.hotMomentContentByThread threadId).getD "" != "")) = true) := by
      simp [hg]
    simp only [endOfTopicCheck]
    rw [if_neg hg']
  · by_cases hg : (!r.is_hot_moment
        && titleTruthy (flat2 (getKey st.lastMomentTitleByThread threadId))
        && ((getKey st.hotMomentContentByThread threadId).getD "" != "")) = true
    · simp only [endOfTopicCheck, saveHotMoment]
      rw [if_pos hg, if_pos hcond]
    · have hg' : ¬ ((!r.is_hot_moment
          && titleTruthy (flat2 (getKey st.lastMomentTitleByThread threadId))
          && ((getKey st.hotMomentContentByThread threadId).getD "" != "")) = true) := hg
      simp only [endOfTopicCheck]
      rw [if_neg hg']

/-- C5 amended: on a known session, a Topic Classifier response that cannot
    be parsed never yields any decision other than the safe default
    `(isHotMoment := false, proposedTitle := null, continuation := false)`,
    and the parse failure itself never raises — the only raise
    `ingestParagraph` can produce after a parse failure is the Mongoose
    validation error of the end-of-topic save, reachable exactly when an
    active title holds truthy accumulated text whose trim is empty.  In
    particular the call returns the default decision whenever there is no
    active title, or no accumulated text, or the trimmed text is non-empty
    (with a non-empty session id). -/
theorem claim_C5_parse_failure_default
    (o : LLMOracle) (st : ServiceState) (threadId paragraph : String)
    (hist : List HistEntry)
    (hh : getKey st.threadsHistory threadId = some hist)
    (hpf : o.classify (classifierInput st threadId paragraph) = none) :
    (∀ r st1, analyzeParagraph o st threadId paragraph = (Except.ok r, st1) →
        r = defaultResult)
      ∧ (∀ e st1, analyzeParagraph o st threadId paragraph = (Except.error e, st1) →
        e = mongooseValidationError)
      ∧ ((titleTruthy (flat2 (getKey st.lastMomentTitleByThread threadId)) = false
            ∨ (getKey st.hotMomentContentByThread threadId).getD "" = ""
            ∨ (jsTrim ((getKey st.hotMomentContentByThread threadId).getD "") ≠ ""
                ∧ threadId ≠ ""))
          → (analyzeParagraph o st threadId paragraph).1 = Except.ok defaultResult) := by
  have hform : analyzeParagraph o st threadId paragraph =
      (match endOfTopicCheck o
          (pushAssistant
            { st with threadsHistory :=
                setKey st.threadsHistory threadId (classifierInput st threadId paragraph) }
            threadId defaultResult)
          threadId defaultResult with
        | (Except.error e, stE) => (Except.error e, stE)
        | (Except.ok _, stE) => (Except.ok defaultResult, stE)) := by
    simp [analyzeParagraph, applyContinuity, accumulateContent, pushAssistant, hh, hpf,
      defaultResult, titleTruthy_some, flat2]
  cases hE : endOfTopicCheck o
      (pushAssistant
        { st with threadsHistory :=
            setKey st.threadsHistory threadId (classifierInput st threadId paragraph) }
        threadId defaultResult)
      threadId defaultResult with
  | mk exc stE =>
    rw [hE] at hform
    cases exc with
    | error e0 =>
      refine ⟨?_, ?_, ?_⟩
      · intro r st1 h
        rw [hform] at h
        simp at h
      · intro e st1 h
        rw [hform] at h
        have he : e0 = e := by
          have := congrArg Prod.fst h
          simpa using this
        rw [← he]
        apply endOfTopicCheck_error_eq o _ threadId defaultResult e0
        rw [hE]
      · intro hsafe
        exfalso
        have hok : (endOfTopicCheck o
            (pushAssistant
              { st with threadsHistory :=
                  setKey st.threadsHistory threadId (classifierInput st threadId paragraph) }
              threadId defaultResult)
            threadId defaultResult).1 = Except.ok () := by
          apply endOfTopicCheck_ok_first
          rcases hsafe with h1 | h2 | h3
          · left
            show (!defaultResult.is_hot_moment
                && titleTruthy (flat2 (getKey st.lastMomentTitleByThread threadId))
                && ((getKey st.hotMomentContentByThread threadId).getD "" != "")) = false
            simp [defaultResult, h1]
          · left
            show (!defaultResult.is_hot_moment
                && titleTruthy (flat2 (getKey st.lastMomentTitleByThread threadId))
                && ((getKey st.hotMomentContentByThread threadId).getD "" != "")) = false
            simp [defaultResult, h2]
          · by_cases ht : titleTruthy (flat2 (getKey st.lastMomentTitleByThread threadId)) = true
            · right
              show ((threadId != "")
                  && ((flat2 (getKey st.lastMomentTitleByThread threadId)).getD "" != "")
                  && (jsTrim ((getKey st.hotMomentContentByThread threadId).getD "") != ""))
                    = true
              have htg := titleTruthy_getD _ ht
              simp [h3.1, h3.2, htg]
            · left
              have ht' : titleTruthy (flat2 (getKey st.lastMomentTitleByThread threadId))
                  = false := by
                revert ht
                cases titleTruthy (flat2 (getKey st.lastMomentTitleByThread threadId)) <;> simp
              show (!defaultResult.is_hot_moment
                  && titleTruthy (flat2 (getKey st.lastMomentTitleByThread threadId))
                  && ((getKey st.hotMomentContentByThread threadId).getD "" != "")) = false
              simp [defaultResult, ht']
        rw [hE] at hok
        simp at hok
    | ok u =>
      refine ⟨?_, ?_, ?_⟩
      · intro r st1 h
        rw [hform] at h
        have := congrArg Prod.fst h
        simp at this
        exact this.symm
      · intro e st1 h
        rw [hform] at h
        simp at h
      · intro _
        rw [hform]

def exStC5 : ServiceState :=
  { threadsHistory := [("t", [HistEntry.system])],
    lastMomentTitleByThread := [("t", some "T")],
    hotMomentContentByThread := [("t", " \n")],
    pendingCaptures := [],
    store := [],
    nextTime := 0 }

def exOrC5 : LLMOracle :=
  { classify := fun _ => none,
    checkContinuation := fun _ _ => none,
    genPosts := fun _ _ => none }

/-- C5 counterexample: with an active title `T` and the truthy but
    whitespace-only accumulated text `" \n"`, a classifier response that
    fails to parse yields the default non-hot decision, which triggers the
    end-of-topic finalization — and its save of the trimmed empty content
    fails Mongoose validation, so `ingestParagraph` DOES raise, refuting
    the claim that one malformed model response can never crash the
    ingestion call. -/
theorem claim_C5_counterexample :
    (analyzeParagraph exOrC5 exStC5 "t" "p").1 = Except.error mongooseValidationError
      ∧ getKey (analyzeParagraph exOrC5 exStC5 "t" "p").2.hotMomentContentByThread
          "t" = some " \n" :=
  ⟨rfl, rfl⟩

/-- C5 witness: the amended theorem at a session with an active moment
    whose trimmed text is non-empty — the parse failure degrades to the
    default decision and the call succeeds. -/
theorem claim_C5_witness :
    (∀ r st1, analyzeParagraph exOrC5
        { exStC5 with hotMomentContentByThread := [("t", "x\n")] } "t" "p" =
          (Except.ok r, st1) → r = defaultResult)
      ∧ (∀ e st1, analyzeParagraph exOrC5
          { exStC5 with hotMomentContentByThread := [("t", "x\n")] } "t" "p" =
            (Except.error e, st1) → e = mongooseValidationError)
      ∧ ((titleTruthy (flat2 (getKey
              ({ exStC5 with hotMomentContentByThread := [("t", "x\n")]
                } : ServiceState).lastMomentTitleByThread "t")) = false
            ∨ (getKey ({ exStC5 with hotMomentContentByThread := [("t", "x\n")]
                } : ServiceState).hotMomentContentByThread "t").getD "" = ""
            ∨ (jsTrim ((getKey ({ exStC5 with hotMomentContentByThread := [("t", "x\n")]
                } : ServiceState).hotMomentContentByThread "t").getD "") ≠ ""
                ∧ "t" ≠ ""))
          → (analyzeParagraph exOrC5
              { exStC5 with hotMomentContentByThread := [("t", "x\n")] } "t" "p").1 =
              Except.ok defaultResult) :=
  claim_C5_parse_failure_default exOrC5
    { exStC5 with hotMomentContentByThread := [("t", "x\n")] } "t" "p" [HistEntry.system]
    rfl rfl

/- Claim C6. -/

def exCapC6 : Capture :=
  { offset := 75, screenshotPath := "sp", gifPath := "gp",
    screenshotUrl := "su", gifUrl := "gu" }

def exStC6 : ServiceState :=
  { threadsHistory := [("t", [HistEntry.system])],
    lastMomentTitleByThread := [("t", some "T")],
    hotMomentContentByThread := [("t", "x\n")],
    pendingCaptures := [("t", [exCapC6])],
    store := [],
    nextTime := 0 }

def exOrC6 : LLMOracle :=
  { classify := fun _ =>
      some { is_hot_moment := false, moment_title := none, continuation := false },
    checkContinuation := fun _ _ => none,
    genPosts := fun _ _ => none }

/-- C6 counterexample: `finalizeSession` on a session with an active moment
    persists the Moment but does *not* clear the session state the claim
    lists: the active title is still `some "T"` and the classifier-context
    history is untouched (`finalizeThread`, lines 720-732, only resets the
    accumulated text and the pending captures). -/
theorem claim_C6_counterexample :
    (finalizeState exStC6 (finalizeThread exOrC6 exStC6 "t")).store.length = 1
      ∧ getKey (finalizeState exStC6 (finalizeThread exOrC6 exStC6 "t")).lastMomentTitleByThread
          "t" = some (some "T")
      ∧ getKey (finalizeState exStC6 (finalizeThread exOrC6 exStC6 "t")).threadsHistory
          "t" = some [HistEntry.system]
      ∧ ¬ getKey (finalizeState exStC6 (finalizeThread exOrC6 exStC6 "t")).lastMomentTitleByThread
          "t" = some none := by
  refine ⟨rfl, rfl, rfl, ?_⟩
  decide

/-- C6 amended: when a moment ends — through `finalizeSession` or natural
    end-of-topic detection — with accumulated text whose trim is non-empty
    (so the save passes validation), the accumulated text and the pending
    captures are cleared but the classifier-context history is *not*:
    `finalizeSession` persists the active moment, empties the accumulated
    text, drops pending captures, and leaves both the active title and the
    history exactly as they were; end-of-topic detection during
    `ingestParagraph` persists the moment, empties the accumulated text,
    drops pending captures, sets the stored title to the empty string, and
    *grows* the history by the user and assistant entries of that call.
    (With a whitespace-only accumulated text the save rejects instead and
    nothing ends or is cleared, as proven for C3/C4/C5.) -/
theorem claim_C6_moment_end_clears_text_not_history
    (o : LLMOracle) (st : ServiceState) (threadId paragraph : String)
    (hist : List HistEntry) (T C : String) (r : ClassifierResult)
    (hh : getKey st.threadsHistory threadId = some hist)
    (hl : getKey st.lastMomentTitleByThread threadId = some (some T))
    (hT : T ≠ "")
    (hcon : getKey st.hotMomentContentByThread threadId = some C)
    (hC : C ≠ "")
    (hc : o.classify (classifierInput st threadId paragraph) = some r)
    (hih : r.is_hot_moment = false)
    (hnt : titleTruthy r.moment_title = false)
    (htid : threadId ≠ "")
    (htrim : jsTrim C ≠ "") :
    ((finalizeState st (finalizeThread o st threadId)).store.length = st.store.length + 1
      ∧ getKey (finalizeState st (finalizeThread o st threadId)).hotMomentContentByThread
          threadId = some ""
      ∧ getKey (finalizeState st (finalizeThread o st threadId)).pendingCaptures threadId = none
      ∧ getKey (finalizeState st (finalizeThread o st threadId)).lastMomentTitleByThread
          threadId = some (some T)
      ∧ getKey (finalizeState st (finalizeThread o st threadId)).threadsHistory
          threadId = some hist)
      ∧ ((analyzeParagraph o st threadId paragraph).2.store.length = st.store.length + 1
      ∧ getKey (analyzeParagraph o st threadId paragraph).2.hotMomentContentByThread
          threadId = some ""
      ∧ getKey (analyzeParagraph o st threadId paragraph).2.pendingCaptures threadId = none
      ∧ getKey (analyzeParagraph o st threadId paragraph).2.threadsHistory
          threadId = some (hist ++ [HistEntry.user (jsTrim C) (jsTrim paragraph),
            HistEntry.assistant
              { is_hot_moment := false, moment_title := r.moment_title,
                continuation := false }])) := by
  constructor
  · refine ⟨?_, ?_, ?_, ?_, ?_⟩ <;>
      simp [finalizeThread, finalizeState, saveHotMoment, hh, hl, hcon, hT, hC, htid, htrim,
        titleTruthy_some, flat2, getKey_delKey_self, getKey_setKey_self]
  · refine ⟨?_, ?_, ?_, ?_⟩ <;>
      · simp [analyzeParagraph, applyContinuity, accumulateContent, pushAssistant,
          endOfTopicCheck, saveHotMoment, hh, hc, hl, hcon, hih, hnt, hT, hC, htid, htrim,
          titleTruthy_some, flat2, getKey_delKey_self, getKey_setKey_self]
        try simp [classifierInput, contextOf, hh, hcon]

/-- C6 witness: the amended theorem at the concrete session of the
    counterexample (accumulated text `x\n`, pending capture attached). -/
theorem claim_C6_witness :
    ((finalizeState exStC6 (finalizeThread exOrC6 exStC6 "t")).store.length =
          exStC6.store.length + 1
      ∧ getKey (finalizeState exStC6 (finalizeThread exOrC6 exStC6 "t")).hotMomentContentByThread
          "t" = some ""
      ∧ getKey (finalizeState exStC6 (finalizeThread exOrC6 exStC6 "t")).pendingCaptures
          "t" = none
      ∧ getKey (finalizeState exStC6 (finalizeThread exOrC6 exStC6 "t")).lastMomentTitleByThread
          "t" = some (some "T")
      ∧ getKey (finalizeState exStC6 (finalizeThread exOrC6 exStC6 "t")).threadsHistory
          "t" = some [HistEntry.system])
      ∧ ((analyzeParagraph exOrC6 exStC6 "t" "p").2.store.length = exStC6.store.length + 1
      ∧ getKey (analyzeParagraph exOrC6 exStC6 "t" "p").2.hotMomentContentByThread
          "t" = some ""
      ∧ getKey (analyzeParagraph exOrC6 exStC6 "t" "p").2.pendingCaptures "t" = none
      ∧ getKey (analyzeParagraph exOrC6 exStC6 "t" "p").2.threadsHistory
          "t" = some ([HistEntry.system] ++ [HistEntry.user (jsTrim "x\n") (jsTrim "p"),
            HistEntry.assistant
              { is_hot_moment := false, moment_title := none, continuation := false }])) :=
  claim_C6_moment_end_clears_text_not_history exOrC6 exStC6 "t" "p" [HistEntry.system] "T" "x\n"
    { is_hot_moment := false, moment_title := none, continuation := false }
    rfl rfl (by decide) rfl (by decide) rfl rfl rfl (by decide) (by decide)

/- Claim C8. -/

def exEoC8 : ExecOracle :=
  { screenshotOk := fun o => o != 75, gifOk := fun _ => true }

def exEoC8ok : ExecOracle :=
  { screenshotOk := fun _ => true, gifOk := fun _ => true }

/-- C8 counterexample: with a screenshot extraction failing at offset 75
    while the commands for offsets 60 and 45 would succeed, the capture run
    logs the error and rejects immediately: no capture is produced for any
    offset (the loop at transcription.module.ts lines 94-127 `reject`s,
    which throws out of the whole function), whereas a fully successful run
    yields three captures. -/
theorem claim_C8_counterexample :
    captureMediaForHotMoment exEoC8 "t" "My Title" 0 =
        (Except.error (CaptureErr.screenshot 75),
          [CaptureLog.captureStart 75, CaptureLog.screenshotErr 75])
      ∧ ((captureMediaForHotMoment exEoC8ok "t" "My Title" 0).2.length = 3
          ∧ (captureMediaForHotMoment exEoC8ok "t" "My Title" 0).1.toOption.map
              (fun l => l.map (fun c => Capture.offset c)) = some [75, 60, 45]) :=
  ⟨rfl, rfl, rfl⟩

/-- C8 amended: a failure of the still-frame or the clip command at ANY
    single offset of the run (75s, 60s or 45s) is logged and then ABORTS
    the capture run: the rejection propagates out of
    `captureMediaForHotMoment` before any capture is returned, so the
    offsets after the failing one are never attempted and the captures
    already made at earlier offsets are abandoned (the run returns an
    error carrying no captures).  The live-ingestion watch callback
    swallows the rejection, so transcript ingestion neither fails nor
    records any capture: its resulting state is exactly the post-analysis
    state, pending captures untouched. -/
theorem claim_C8_capture_failure
    (lo : LLMOracle) (eo : ExecOracle) (st : ServiceState)
    (threadId text T : String) (timestamp : Nat) (hist : List HistEntry)
    (htext : jsTrim text ≠ "")
    (hh : getKey st.threadsHistory threadId = some hist)
    (hl : getKey st.lastMomentTitleByThread threadId = some none)
    (hc : lo.classify (classifierInput st threadId text) =
        some { is_hot_moment := true, moment_title := some T, continuation := false })
    (hT : T ≠ "") :
    (eo.screenshotOk 75 = false →
        captureMediaForHotMoment eo threadId T timestamp =
          (Except.error (CaptureErr.screenshot 75),
            [CaptureLog.captureStart 75, CaptureLog.screenshotErr 75]))
      ∧ (eo.screenshotOk 75 = true → eo.gifOk 75 = false →
        captureMediaForHotMoment eo threadId T timestamp =
          (Except.error (CaptureErr.gif 75),
            [CaptureLog.captureStart 75, CaptureLog.gifErr 75]))
      ∧ (eo.screenshotOk 75 = true → eo.gifOk 75 = true → eo.screenshotOk 60 = false →
        captureMediaForHotMoment eo threadId T timestamp =
          (Except.error (CaptureErr.screenshot 60),
            [CaptureLog.captureStart 75, CaptureLog.captureStart 60,
              CaptureLog.screenshotErr 60]))
      ∧ (eo.screenshotOk 75 = true → eo.gifOk 75 = true → eo.screenshotOk 60 = true →
          eo.gifOk 60 = false →
        captureMediaForHotMoment eo threadId T timestamp =
          (Except.error (CaptureErr.gif 60),
            [CaptureLog.captureStart 75, CaptureLog.captureStart 60, CaptureLog.gifErr 60]))
      ∧ (eo.screenshotOk 75 = true → eo.gifOk 75 = true → eo.screenshotOk 60 = true →
          eo.gifOk 60 = true → eo.screenshotOk 45 = false →
        captureMediaForHotMoment eo threadId T timestamp =
          (Except.error (CaptureErr.screenshot 45),
            [CaptureLog.captureStart 75, CaptureLog.captureStart 60,
              CaptureLog.captureStart 45, CaptureLog.screenshotErr 45]))
      ∧ (eo.screenshotOk 75 = true → eo.gifOk 75 = true → eo.screenshotOk 60 = true →
          eo.gifOk 60 = true → eo.screenshotOk 45 = true → eo.gifOk 45 = false →
        captureMediaForHotMoment eo threadId T timestamp =
          (Except.error (CaptureErr.gif 45),
            [CaptureLog.captureStart 75, CaptureLog.captureStart 60,
              CaptureLog.captureStart 45, CaptureLog.gifErr 45]))
      ∧ (∀ e logs, captureMediaForHotMoment eo threadId T timestamp = (Except.error e, logs) →
        processSegment lo eo st threadId text timestamp =
            (analyzeParagraph lo st threadId text).2
          ∧ getKey (processSegment lo eo st threadId text timestamp).pendingCaptures threadId =
              getKey st.pendingCaptures threadId) := by
  have hana1 : (analyzeParagraph lo st threadId text).1 =
      Except.ok { is_hot_moment := true, moment_title := some T, continuation := false } := by
    simp [analyzeParagraph, applyContinuity, accumulateContent, pushAssistant, endOfTopicCheck,
      hh, hc, hl, hT, titleTruthy_some, flat2]
  have hana2 : getKey (analyzeParagraph lo st threadId text).2.pendingCaptures threadId =
      getKey st.pendingCaptures threadId := by
    simp [analyzeParagraph, applyContinuity, accumulateContent, pushAssistant, endOfTopicCheck,
      hh, hc, hl, hT, titleTruthy_some, flat2]
  refine ⟨?_, ?_, ?_, ?_, ?_, ?_, ?_⟩
  · intro h1
    simp [captureMediaForHotMoment, captureLoop, h1]
  · intro h1 h2
    simp [captureMediaForHotMoment, captureLoop, h1, h2]
  · intro h1 h2 h3
    simp [captureMediaForHotMoment, captureLoop, h1, h2, h3]
  · intro h1 h2 h3 h4
    simp [captureMediaForHotMoment, captureLoop, h1, h2, h3, h4]
  · intro h1 h2 h3 h4 h5
    simp [captureMediaForHotMoment, captureLoop, h1, h2, h3, h4, h5]
  · intro h1 h2 h3 h4 h5 h6
    simp [captureMediaForHotMoment, captureLoop, h1, h2, h3, h4, h5, h6]
  · intro e logs hcmh
    rcases hsplit : analyzeParagraph lo st threadId text with ⟨exc, st1⟩
    rw [hsplit] at hana1 hana2
    have hexc : exc =
        Except.ok { is_hot_moment := true, moment_title := some T, continuation := false } :=
      hana1
    subst hexc
    constructor
    · rw [processSegment, if_pos (by simpa using htext), hsplit]
      simp [hcmh]
    · rw [processSegment, if_pos (by simpa using htext), hsplit]
      simp [hcmh]
      exact hana2

def exStC8 : ServiceState :=
  { threadsHistory := [("t", [HistEntry.system])],
    lastMomentTitleByThread := [("t", none)],
    hotMomentContentByThread := [("t", "")],
    pendingCaptures := [],
    store := [],
    nextTime := 0 }

def exOrC8 : LLMOracle :=
  { classify := fun _ =>
      some { is_hot_moment := true, moment_title := some "T", continuation := false },
    checkContinuation := fun _ _ => none,
    genPosts := fun _ _ => none }

def exEoC8gif60 : ExecOracle :=
  { screenshotOk := fun _ => true, gifOk := fun o => o != 60 }

/-- C8 witness: the amended theorem at a concrete new hot moment whose gif
    command fails at the middle offset 60 — the capture already made at
    offset 75 is abandoned and ingestion is unaffected. -/
theorem claim_C8_witness :
    (exEoC8gif60.screenshotOk 75 = false →
        captureMediaForHotMoment exEoC8gif60 "t" "T" 0 =
          (Except.error (CaptureErr.screenshot 75),
            [CaptureLog.captureStart 75, CaptureLog.screenshotErr 75]))
      ∧ (exEoC8gif60.screenshotOk 75 = true → exEoC8gif60.gifOk 75 = false →
        captureMediaForHotMoment exEoC8gif60 "t" "T" 0 =
          (Except.error (CaptureErr.gif 75),
            [CaptureLog.captureStart 75, CaptureLog.gifErr 75]))
      ∧ (exEoC8gif60.screenshotOk 75 = true → exEoC8gif60.gifOk 75 = true →
          exEoC8gif60.screenshotOk 60 = false →
        captureMediaForHotMoment exEoC8gif60 "t" "T" 0 =
          (Except.error (CaptureErr.screenshot 60),
            [CaptureLog.captureStart 75, CaptureLog.captureStart 60,
              CaptureLog.screenshotErr 60]))
      ∧ (exEoC8gif60.screenshotOk 75 = true → exEoC8gif60.gifOk 75 = true →
          exEoC8gif60.screenshotOk 60 = true → exEoC8gif60.gifOk 60 = false →
        captureMediaForHotMoment exEoC8gif60 "t" "T" 0 =
          (Except.error (CaptureErr.gif 60),
            [CaptureLog.captureStart 75, CaptureLog.captureStart 60, CaptureLog.gifErr 60]))
      ∧ (exEoC8gif60.screenshotOk 75 = true → exEoC8gif60.gifOk 75 = true →
          exEoC8gif60.screenshotOk 60 = true → exEoC8gif60.gifOk 60 = true →
          exEoC8gif60.screenshotOk 45 = false →
        captureMediaForHotMoment exEoC8gif60 "t" "T" 0 =
          (Except.error (CaptureErr.screenshot 45),
            [CaptureLog.captureStart 75, CaptureLog.captureStart 60,
              CaptureLog.captureStart 45, CaptureLog.screenshotErr 45]))
      ∧ (exEoC8gif60.screenshotOk 75 = true → exEoC8gif60.gifOk 75 = true →
          exEoC8gif60.screenshotOk 60 = true → exEoC8gif60.gifOk 60 = true →
          exEoC8gif60.screenshotOk 45 = true → exEoC8gif60.gifOk 45 = false →
        captureMediaForHotMoment exEoC8gif60 "t" "T" 0 =
          (Except.error (CaptureErr.gif 45),
            [CaptureLog.captureStart 75, CaptureLog.captureStart 60,
              CaptureLog.captureStart 45, CaptureLog.gifErr 45]))
      ∧ (∀ e logs, captureMediaForHotMoment exEoC8gif60 "t" "T" 0 = (Except.error e, logs) →
        processSegment exOrC8 exEoC8gif60 exStC8 "t" "p" 0 =
            (analyzeParagraph exOrC8 exStC8 "t" "p").2
          ∧ getKey (processSegment exOrC8 exEoC8gif60 exStC8 "t" "p" 0).pendingCaptures "t" =
              getKey exStC8.pendingCaptures "t") :=
  claim_C8_capture_failure exOrC8 exEoC8gif60 exStC8 "t" "p" "T" 0 [HistEntry.system]
    (by decide) rfl rfl rfl (by decide)

/- Claim C9. -/

def exM0C9 : StoredMoment :=
  { thread_id := "t", moment_title := "A", content := "a", posts := {},
    captures := [], createdAt := 0 }

def exM1C9 : StoredMoment :=
  { thread_id := "t", moment_title := "B", content := "b", posts := {},
    captures := [], createdAt := 1 }

def exStC9 : ServiceState :=
  { threadsHistory := [], lastMomentTitleByThread := [], hotMomentContentByThread := [],
    pendingCaptures := [], store := [exM0C9, exM1C9], nextTime := 2 }

/-- A persisted Moment with non-empty title and content. -/
def momentOk (m : StoredMoment) : Prop := m.moment_title ≠ "" ∧ m.content ≠ ""

/-- All persisted Moments have non-empty title and content. -/
def storeOk (st : ServiceState) : Prop := ∀ m ∈ st.store, momentOk m

/-- A save that succeeds (passes the schema's required-field validation)
    appends a Moment with non-empty title and content. -/
theorem saveHotMoment_ok_storeOk (st st' : ServiceState) (threadId title content : String)
    (posts : Posts) (captures : List Capture)
    (h : saveHotMoment st threadId title content posts captures = Except.ok st')
    (hs : storeOk st) : storeOk st' := by
  rw [saveHotMoment] at h
  split at h
  next hcond =>
    injection h with h
    subst h
    intro m hm
    simp only [List.mem_append, List.mem_singleton] at hm
    rcases hm with hm | hm
    · exact hs m hm
    · subst hm
      have h1 := (Bool.and_eq_true _ _).mp hcond
      have h2 := (Bool.and_eq_true _ _).mp h1.1
      constructor
      · simpa using h2.2
      · simpa using h1.2
  next => cases h

theorem applyContinuity_storeOk (o : LLMOracle) (st : ServiceState) (threadId : String)
    (r : ClassifierResult) (hs : storeOk st) :
    storeOk (applyContinuity o st threadId r).2 := by
  simp only [applyContinuity]
  by_cases h1 : (titleTruthy (flat2 (getKey st.lastMomentTitleByThread threadId))
      && titleTruthy r.moment_title) = true
  · rw [if_pos h1]
    by_cases h2 : (sameTopicOf o ((flat2 (getKey st.lastMomentTitleByThread threadId)).getD "")
        (r.moment_title.getD "")) = true
    · rw [if_pos h2]
      exact hs
    · rw [if_neg h2]
      by_cases hg : (titleTruthy (flat2 (getKey st.lastMomentTitleByThread threadId))
          && ((getKey st.hotMomentContentByThread threadId).getD "" != "")) = true
      · rw [if_pos hg]
        cases hsv : saveHotMoment st threadId
            ((flat2 (getKey st.lastMomentTitleByThread threadId)).getD "")
            ((getKey st.hotMomentContentByThread threadId).getD "")
            (generateSocialPosts o ((flat2 (getKey st.lastMomentTitleByThread threadId)).getD "")
              ((getKey st.hotMomentContentByThread threadId).getD ""))
            ((getKey st.pendingCaptures threadId).getD []) with
        | error e => exact hs
        | ok stS =>
          intro m hm
          exact saveHotMoment_ok_storeOk _ _ _ _ _ _ _ hsv hs m hm
      · rw [if_neg hg]
        exact hs
  · rw [if_neg h1]
    by_cases h3 : (r.is_hot_moment && titleTruthy r.moment_title) = true
    · rw [if_pos h3]
      exact hs
    · rw [if_neg h3]
      exact hs

theorem endOfTopicCheck_storeOk (o : LLMOracle) (st : ServiceState) (threadId : String)
    (r : ClassifierResult) (hs : storeOk st) :
    storeOk (endOfTopicCheck o st threadId r).2 := by
  simp only [endOfTopicCheck]
  by_cases hg : (!r.is_hot_moment
      && titleTruthy (flat2 (getKey st.lastMomentTitleByThread threadId))
      && ((getKey st.hotMomentContentByThread threadId).getD "" != "")) = true
  · rw [if_pos hg]
    cases hsv : saveHotMoment st threadId
        ((flat2 (getKey st.lastMomentTitleByThread threadId)).getD "")
        ((getKey st.hotMomentContentByThread threadId).getD "")
        (generateSocialPosts o ((flat2 (getKey st.lastMomentTitleByThread threadId)).getD "")
          ((getKey st.hotMomentContentByThread threadId).getD ""))
        ((getKey st.pendingCaptures threadId).getD []) with
    | error e => exact hs
    | ok stS =>
      intro m hm
      exact saveHotMoment_ok_storeOk _ _ _ _ _ _ _ hsv hs m hm
  · rw [if_neg hg]
    exact hs

theorem finalizeThread_storeOk (o : LLMOracle) (st : ServiceState) (threadId : String)
    (hs : storeOk st) :
    storeOk (finalizeState st (finalizeThread o st threadId)) := by
  simp only [finalizeThread]
  by_cases hg : (titleTruthy (flat2 (getKey st.lastMomentTitleByThread threadId))
      && ((getKey st.hotMomentContentByThread threadId).getD "" != "")) = true
  · rw [if_pos hg]
    cases hsv : saveHotMoment st threadId
        ((flat2 (getKey st.lastMomentTitleByThread threadId)).getD "")
        ((getKey st.hotMomentContentByThread threadId).getD "")
        (generateSocialPosts o ((flat2 (getKey st.lastMomentTitleByThread threadId)).getD "")
          ((getKey st.hotMomentContentByThread threadId).getD ""))
        ((getKey st.pendingCaptures threadId).getD []) with
    | error e => exact hs
    | ok stS =>
      intro m hm
      exact saveHotMoment_ok_storeOk _ _ _ _ _ _ _ hsv hs m hm
  · rw [if_neg hg]
    exact hs

/-- C10: every Moment the core persists has a non-empty title and a
    non-empty content: each persistence site fires only behind the truthy
    title/content guards, and the store schema's required `thread_id`,
    `moment_title` and `content` fields make a save with an empty value
    reject rather than insert — so the invariant "all stored Moments have
    non-empty title and content" is preserved by `finalizeSession`,
    `ingestParagraph` (through every path, including the throwing ones)
    and `createSession`; moreover `finalizeSession` does not even attempt
    a save when the active title is falsy or the accumulated text empty. -/
theorem accumulateContent_store (st : ServiceState) (threadId paragraph : String)
    (r : ClassifierResult) :
    (accumulateContent st threadId paragraph r).store = st.store := by
  rw [accumulateContent]
  split <;> rfl

theorem pushAssistant_store (st : ServiceState) (threadId : String)
    (r : ClassifierResult) :
    (pushAssistant st threadId r).store = st.store := rfl

theorem claim_C10_persisted_fields_nonempty
    (o : LLMOracle) (st : ServiceState) (threadId paragraph : String) (now : Nat)
    (hs : storeOk st) :
    storeOk (finalizeState st (finalizeThread o st threadId))
      ∧ storeOk (analyzeParagraph o st threadId paragraph).2
      ∧ storeOk (createThread st now).2
      ∧ ((titleTruthy (flat2 (getKey st.lastMomentTitleByThread threadId)) = false
            ∨ (getKey st.hotMomentContentByThread threadId).getD "" = "")
          → finalizeThread o st threadId = Except.ok st) := by
  refine ⟨finalizeThread_storeOk o st threadId hs, ?_, ?_, ?_⟩
  · simp only [analyzeParagraph]
    by_cases hh0 : (getKey st.threadsHistory threadId).isNone = true
    · rw [if_pos hh0]
      exact hs
    · rw [if_neg hh0]
      split
      next e stB hap =>
        have hx := applyContinuity_storeOk o
          { st with threadsHistory :=
              setKey st.threadsHistory threadId (classifierInput st threadId paragraph) }
          threadId ((o.classify (classifierInput st threadId paragraph)).getD defaultResult) hs
        rw [hap] at hx
        exact hx
      next r1 stB hap =>
        have hB : storeOk stB := by
          have hx := applyContinuity_storeOk o
            { st with threadsHistory :=
                setKey st.threadsHistory threadId (classifierInput st threadId paragraph) }
            threadId ((o.classify (classifierInput st threadId paragraph)).getD defaultResult) hs
          rw [hap] at hx
          exact hx
        have hD : storeOk (pushAssistant (accumulateContent stB threadId paragraph r1)
            threadId r1) := by
          intro m hm
          rw [pushAssistant_store, accumulateContent_store] at hm
          exact hB m hm
        split
        next e stE hend =>
          have hx := endOfTopicCheck_storeOk o
            (pushAssistant (accumulateContent stB threadId paragraph r1) threadId r1)
            threadId r1 hD
          rw [hend] at hx
          exact hx
        next u stE hend =>
          have hx := endOfTopicCheck_storeOk o
            (pushAssistant (accumulateContent stB threadId paragraph r1) threadId r1)
            threadId r1 hD
          rw [hend] at hx
          exact hx
  · exact hs
  · intro hcase
    apply finalizeThread_skip
    rcases hcase with h | h
    · simp [h]
    · simp [h]

def exStC10 : ServiceState :=
  { threadsHistory := [("t", [HistEntry.system])],
    lastMomentTitleByThread := [("t", some "T")],
    hotMomentContentByThread := [("t", "x\n")],
    pendingCaptures := [],
    store := [],
    nextTime := 0 }

def exOrC10 : LLMOracle :=
  { classify := fun _ =>
      some { is_hot_moment := false, moment_title := none, continuation := false },
    checkContinuation := fun _ _ => none,
    genPosts := fun _ _ => none }

/-- C10 witness: the invariant applied to a concrete session with an
    active moment. -/
theorem claim_C10_witness :
    storeOk (finalizeState exStC10 (finalizeThread exOrC10 exStC10 "t"))
      ∧ storeOk (analyzeParagraph exOrC10 exStC10 "t" "p").2
      ∧ storeOk (createThread exStC10 5).2
      ∧ ((titleTruthy (flat2 (getKey exStC10.lastMomentTitleByThread "t")) = false
            ∨ (getKey exStC10.hotMomentContentByThread "t").getD "" = "")
          → finalizeThread exOrC10 exStC10 "t" = Except.ok exStC10) :=
  claim_C10_persisted_fields_nonempty exOrC10 exStC10 "t" "p" 5
    (by intro m hm; simp [exStC10] at hm)
